import Mathlib

/-! The header wx/unix/private/sockunix.h.

A shallow embedding of the Unix socket implementation header of wxWidgets:
the registration slots of `wxSocketImplUnix`, the direction mapping of
`wxSocketFDBasedManager` and the AddInput/RemoveInput based callback
management of `wxSocketInputBasedManager`.

Objects are records, member functions are functions from state to state.
The host event loop (the two pure virtual functions of
`wxSocketInputBasedManager`) is an explicit state: the registrations that are
active and the calls made so far.
-/

namespace SockUnix

/-! ## Data model -/

/-- The values of `wxSocketNotify`. The enumeration is declared in
`wx/socket.h`; the header only uses its four enumerators by name. A value of
the C++ type that is none of the four is `unexpected v`. -/
inductive wxSocketNotify where
  | wxSOCKET_INPUT
  | wxSOCKET_OUTPUT
  | wxSOCKET_CONNECTION
  | wxSOCKET_LOST
  | unexpected (v : Int)
deriving DecidableEq, Repr

/-- The enum `wxSocketFDBasedManager::SocketDir`: `FD_INPUT` is 0 and
`FD_OUTPUT` is 1, the index into `m_fds`. -/
inductive SocketDir where
  | FD_INPUT
  | FD_OUTPUT
deriving DecidableEq, Repr

/-- The other direction. -/
def SocketDir.other : SocketDir → SocketDir
  | .FD_INPUT => .FD_OUTPUT
  | .FD_OUTPUT => .FD_INPUT

/-- The class `wxSocketImplUnix`. `self` is the address of the object (the
`this` pointer handed to `AddInput` as the handler); `m_fd` and `m_server`
are the members inherited from `wxSocketImpl` that the header reads; `m_fds`
is the array of the two registration slots. -/
structure wxSocketImplUnix where
  self : Nat
  m_fd : Int
  m_server : Bool
  m_use_events : Bool
  m_fds : Int × Int
  m_enabledCallbacks : Int
deriving DecidableEq, Repr

/-- The part of a socket that the base class constructor `wxSocketImpl`
initialises before the body of the `wxSocketImplUnix` constructor runs. -/
structure wxSocketImpl where
  self : Nat
  m_fd : Int
  m_server : Bool
deriving DecidableEq, Repr

/-- The constructor `wxSocketImplUnix::wxSocketImplUnix`. -/
def wxSocketImplUnix.ctor (base : wxSocketImpl) : wxSocketImplUnix :=
  { self := base.self
    m_fd := base.m_fd
    m_server := base.m_server
    m_fds := (-1, -1)
    m_use_events := false
    m_enabledCallbacks := 0 }

/-- The member `HasAnyEnabledCallbacks`. -/
def wxSocketImplUnix.HasAnyEnabledCallbacks (s : wxSocketImplUnix) : Bool :=
  s.m_enabledCallbacks != 0

/-- The member `EnableCallback`: `m_enabledCallbacks |= flag`. -/
def wxSocketImplUnix.EnableCallback (s : wxSocketImplUnix) (flag : Int) : wxSocketImplUnix :=
  { s with m_enabledCallbacks := Int.lor s.m_enabledCallbacks flag }

/-- The member `DisableCallback`: `m_enabledCallbacks &= ~flag`. -/
def wxSocketImplUnix.DisableCallback (s : wxSocketImplUnix) (flag : Int) : wxSocketImplUnix :=
  { s with m_enabledCallbacks := Int.land s.m_enabledCallbacks (Int.lnot flag) }

/-- The member `GetEnabledCallbacks`. -/
def wxSocketImplUnix.GetEnabledCallbacks (s : wxSocketImplUnix) : Int :=
  s.m_enabledCallbacks

/-- The values of the C++ type `int`, 32 bits wide. -/
def InIntRange (x : Int) : Prop :=
  -2147483648 ≤ x ∧ x ≤ 2147483647

instance (x : Int) : Decidable (InIntRange x) := by
  unfold InIntRange
  infer_instance

/-- The result of `GetDirForEvent`: the direction returned, and the
messages of the assertions (`wxFAIL_MSG`) raised on the way. -/
structure DirResult where
  dir : SocketDir
  asserts : List String
deriving DecidableEq, Repr

/-- The member `wxSocketFDBasedManager::GetDirForEvent`. The `default` label
raises the assertion and falls through to the `wxSOCKET_LOST` and
`wxSOCKET_INPUT` labels. -/
def GetDirForEvent (socket : wxSocketImplUnix) (event : wxSocketNotify) : DirResult :=
  match event with
  | .unexpected _ => { dir := .FD_INPUT, asserts := [ "unexpected socket event" ] }
  | .wxSOCKET_LOST => { dir := .FD_INPUT, asserts := [] }
  | .wxSOCKET_INPUT => { dir := .FD_INPUT, asserts := [] }
  | .wxSOCKET_OUTPUT => { dir := .FD_OUTPUT, asserts := [] }
  | .wxSOCKET_CONNECTION =>
      { dir := if socket.m_server then .FD_INPUT else .FD_OUTPUT, asserts := [] }

/-- The member `wxSocketFDBasedManager::FD`, read through the reference. -/
def FD (socket : wxSocketImplUnix) (d : SocketDir) : Int :=
  match d with
  | .FD_INPUT => socket.m_fds.1
  | .FD_OUTPUT => socket.m_fds.2

/-- The member `wxSocketFDBasedManager::FD`, written through the reference. -/
def setFD (socket : wxSocketImplUnix) (d : SocketDir) (v : Int) : wxSocketImplUnix :=
  match d with
  | .FD_INPUT => { socket with m_fds := (v, socket.m_fds.2) }
  | .FD_OUTPUT => { socket with m_fds := (socket.m_fds.1, v) }

/-! ## The host event loop -/

/-- One active registration of the host event loop: the handle the host gave
out for it and the three arguments of the `AddInput` call that created it. -/
structure Registration where
  handle : Int
  handler : Nat
  fd : Int
  dir : SocketDir
deriving DecidableEq, Repr

/-- A call of one of the two pure virtual functions of
`wxSocketInputBasedManager`; `ret` is the value `AddInput` returned. -/
inductive HostCall where
  | AddInput (handler : Nat) (fd : Int) (d : SocketDir) (ret : Int)
  | RemoveInput (fd : Int)
deriving DecidableEq, Repr

/-- Modelled from the spec: the toolkit functions behind `AddInput` and
`RemoveInput` (XtAddInput, gdk_input_add and their counterparts) are not in
the header. The host keeps the registrations that are active, and the calls
it has received in order. -/
structure Host where
  regs : List Registration
  calls : List HostCall
deriving DecidableEq, Repr

/-- The class `wxSocketInputBasedManager`. It has no data members; a port
supplies the two pure virtual functions. `newHandle` is the handle the port's
`AddInput` returns, given the state of the host and the arguments. -/
structure wxSocketInputBasedManager where
  newHandle : Host → Nat → Int → SocketDir → Int

/-- Modelled from the spec: the pure virtual `AddInput(handler, fd, d)`. The
host registers interest in direction `d` of descriptor `fd` for `handler`
and returns the handle of the registration. -/
def AddInput (m : wxSocketInputBasedManager) (host : Host) (handler : Nat) (fd : Int)
    (d : SocketDir) : Int × Host :=
  let h := m.newHandle host handler fd d
  (h, { regs := host.regs ++ [{ handle := h, handler := handler, fd := fd, dir := d }]
        calls := host.calls ++ [HostCall.AddInput handler fd d h] })

/-- Modelled from the spec: the pure virtual `RemoveInput(fd)`. The host
drops the registration with this handle. -/
def RemoveInput (host : Host) (fd : Int) : Host :=
  { regs := host.regs.filter (fun r => r.handle ≠ fd)
    calls := host.calls ++ [HostCall.RemoveInput fd] }

/-- The state the member functions act on: the socket object, the host event
loop, the assertions reported so far (`wxFAIL_MSG`, `wxCHECK_RET`) and the
descriptors handed to `close`. -/
structure World where
  socket : wxSocketImplUnix
  host : Host
  asserts : List String
  closed : List Int
deriving DecidableEq, Repr

/-! ## wxSocketInputBasedManager -/

/-- The member `wxSocketInputBasedManager::Install_Callback`. `wxCHECK_RET`
reports the assertion and returns when the descriptor is invalid. -/
def Install_Callback (m : wxSocketInputBasedManager) (w : World) (event : wxSocketNotify) :
    World :=
  if w.socket.m_fd = -1 then
    { w with asserts := w.asserts ++ [ "shouldn't be called on invalid socket" ] }
  else
    let r := GetDirForEvent w.socket event
    let d := r.dir
    let fd := FD w.socket d
    let host1 := if fd ≠ -1 then RemoveInput w.host fd else w.host
    let added := AddInput m host1 w.socket.self w.socket.m_fd d
    { w with
      socket := setFD w.socket d added.1
      host := added.2
      asserts := w.asserts ++ r.asserts }

/-- The member `wxSocketInputBasedManager::Uninstall_Callback`. -/
def Uninstall_Callback (_m : wxSocketInputBasedManager) (w : World) (event : wxSocketNotify) :
    World :=
  let r := GetDirForEvent w.socket event
  let d := r.dir
  let fd := FD w.socket d
  if fd ≠ -1 then
    { w with
      socket := setFD w.socket d (-1)
      host := RemoveInput w.host fd
      asserts := w.asserts ++ r.asserts }
  else
    { w with asserts := w.asserts ++ r.asserts }

/-- The member `wxSocketImplUnix::DoClose`. `manager` is what
`wxSocketManager::Get()` returns, a null pointer being `none`. -/
def DoClose (manager : Option wxSocketInputBasedManager) (w : World) : World :=
  let w1 :=
    match manager with
    | some m =>
        Uninstall_Callback m (Uninstall_Callback m w .wxSOCKET_INPUT) .wxSOCKET_OUTPUT
    | none => w
  { w1 with closed := w1.closed ++ [w1.socket.m_fd] }

/-! ## Enabling and disabling events -/

/-- A call of `ioctl`: the descriptor, the request and the value of the
argument. -/
structure IoctlCall where
  fd : Int
  request : String
  arg : Int
deriving DecidableEq, Repr

/-- The state the event switches of `wxSocketImplUnix` act on: the state of
the socket and the host, the arguments of the calls of `DoEnableEvents` made
so far, and the calls of `ioctl`. -/
structure EventWorld where
  world : World
  enableCalls : List Bool
  ioctls : List IoctlCall
deriving DecidableEq, Repr

/-- The member `wxSocketImplUnix::DoEnableEvents`. The header only declares
it; `body` is what its definition does to the socket and the host. Every call
is recorded with its argument. -/
def DoEnableEvents (body : Bool → World → World) (enable : Bool) (ew : EventWorld) :
    EventWorld :=
  { ew with world := body enable ew.world, enableCalls := ew.enableCalls ++ [enable] }

/-- The member `wxSocketImplUnix::EnableEvents`. -/
def EnableEvents (body : Bool → World → World) (ew : EventWorld) : EventWorld :=
  if ew.world.socket.m_use_events then DoEnableEvents body true ew else ew

/-- The member `wxSocketImplUnix::DisableEvents`. -/
def DisableEvents (body : Bool → World → World) (ew : EventWorld) : EventWorld :=
  if ew.world.socket.m_use_events then DoEnableEvents body false ew else ew

/-- The member `wxSocketImplUnix::UnblockAndRegisterWithEventLoop`: the
`ioctl` that makes the descriptor non-blocking, then `EnableEvents()`. -/
def UnblockAndRegisterWithEventLoop (body : Bool → World → World) (ew : EventWorld) :
    EventWorld :=
  EnableEvents body
    { ew with
      ioctls := ew.ioctls ++ [{ fd := ew.world.socket.m_fd, request := "FIONBIO", arg := 1 }] }

/-! ## Vocabulary of the properties -/

/-- The handles of the registrations the host holds for this socket. -/
def ownedHandles (w : World) : List Int :=
  (w.host.regs.filter (fun r => r.handler = w.socket.self)).map (fun r => r.handle)

/-- The values of the two slots that are not the sentinel. -/
def slotHandles (s : wxSocketImplUnix) : List Int :=
  [s.m_fds.1, s.m_fds.2].filter (fun v => v ≠ -1)

/-- The set of the host registrations owned by the socket equals the set of
the non-sentinel values in `m_fds`. -/
def SlotHostConsistent (w : World) : Prop :=
  (∀ h ∈ ownedHandles w, h ∈ slotHandles w.socket) ∧
  (∀ h ∈ slotHandles w.socket, h ∈ ownedHandles w)

instance (w : World) : Decidable (SlotHostConsistent w) := by
  unfold SlotHostConsistent
  infer_instance

/-- A handle names one registration: the handles of the active registrations
of the host are pairwise distinct. -/
def HandlesUnique (host : Host) : Prop :=
  (host.regs.map (fun r => r.handle)).Nodup

instance (host : Host) : Decidable (HandlesUnique host) := by
  unfold HandlesUnique
  infer_instance

/-- The registration that slot `d` of the socket stands for: the handle in
the slot, for this socket as handler, its descriptor, and the direction
`d`. -/
def slotRegistration (s : wxSocketImplUnix) (d : SocketDir) : Registration :=
  { handle := FD s d, handler := s.self, fd := s.m_fd, dir := d }

/-- Slot/host consistency, registration by registration: every registration
the host holds for the socket has a non-sentinel handle and is the
registration of the slot of its direction (none is leaked), and every slot
that is not the sentinel has its registration active in the host (none is
dangling). -/
def SlotHostAgree (w : World) : Prop :=
  (∀ r ∈ w.host.regs, r.handler = w.socket.self →
    r.handle ≠ -1 ∧ r = slotRegistration w.socket r.dir) ∧
  (∀ d ∈ [SocketDir.FD_INPUT, SocketDir.FD_OUTPUT],
    FD w.socket d ≠ -1 → slotRegistration w.socket d ∈ w.host.regs)

instance (w : World) : Decidable (SlotHostAgree w) := by
  unfold SlotHostAgree
  infer_instance

/-- Slot `d` is non-sentinel if and only if the host has an active
registration of the socket for direction `d`. -/
def SlotIffRegistered (w : World) : Prop :=
  ∀ d, FD w.socket d ≠ -1 ↔ ∃ r ∈ w.host.regs, r.handler = w.socket.self ∧ r.dir = d

/-- A handle is fresh for the host: it is not the sentinel and no active
registration has it. -/
def FreshHandle (host : Host) (h : Int) : Prop :=
  h ≠ -1 ∧ ∀ r ∈ host.regs, r.handle ≠ h

instance (host : Host) (h : Int) : Decidable (FreshHandle host h) := by
  unfold FreshHandle
  infer_instance

/-- Every call of `AddInput` returns a fresh handle. -/
def AddInputFresh (m : wxSocketInputBasedManager) : Prop :=
  ∀ host handler fd d, FreshHandle host (m.newHandle host handler fd d)

/-- No call of `AddInput` returns the sentinel. -/
def AddInputValid (m : wxSocketInputBasedManager) : Prop :=
  ∀ host handler fd d, m.newHandle host handler fd d ≠ -1

/-- A call of `Install_Callback` or of `Uninstall_Callback`. -/
inductive Op where
  | install (event : wxSocketNotify)
  | uninstall (event : wxSocketNotify)
deriving DecidableEq, Repr

/-- The event of a call. -/
def Op.event : Op → wxSocketNotify
  | .install e => e
  | .uninstall e => e

/-- One call applied to the state. -/
def applyOp (m : wxSocketInputBasedManager) (w : World) : Op → World
  | .install e => Install_Callback m w e
  | .uninstall e => Uninstall_Callback m w e

/-- A finite sequence of calls applied to the state, first call first. -/
def runOps (m : wxSocketInputBasedManager) (w : World) (ops : List Op) : World :=
  ops.foldl (applyOp m) w

/-- The events that are enabled after a sequence of calls: installed and not
uninstalled since. -/
def enabledAfter (ops : List Op) : List wxSocketNotify :=
  ops.foldl
    (fun en op =>
      match op with
      | .install e => e :: en
      | .uninstall e => en.filter (fun x => x ≠ e))
    []

/-! ## Concrete managers and states -/

/-- A port whose `AddInput` returns a handle greater than every handle in
use. -/
def freshManager : wxSocketInputBasedManager :=
  { newHandle := fun host _ _ _ =>
      (((host.regs.map (fun r => r.handle.natAbs)).foldr max 0 + 1 : Nat) : Int) }

/-- A port whose `AddInput` numbers its handles from 100 by the calls the
host has received. -/
def counterManager : wxSocketInputBasedManager :=
  { newHandle := fun host _ _ _ => 100 + (host.calls.length : Int) }

/-- A host with nothing registered. -/
def emptyHost : Host :=
  { regs := [], calls := [] }

/-- A freshly constructed connector socket at address 1 with descriptor 3,
and an idle host. -/
def freshWorld : World :=
  { socket := wxSocketImplUnix.ctor { self := 1, m_fd := 3, m_server := false }
    host := emptyHost
    asserts := []
    closed := [] }

/-- The connector socket after `wxSOCKET_INPUT` has been installed. -/
def registeredWorld : World :=
  Install_Callback freshManager freshWorld .wxSOCKET_INPUT

/-- The connector socket after `wxSOCKET_INPUT` has been installed twice
with handles numbered by the host: the first registration got handle 100 and
was replaced by the second, with handle 102. -/
def replacedWorld : World :=
  Install_Callback counterManager
    (Install_Callback counterManager freshWorld .wxSOCKET_INPUT) .wxSOCKET_INPUT

/-- Enable input, enable connection-lost, disable connection-lost. -/
def lostOffOps : List Op :=
  [.install .wxSOCKET_INPUT, .install .wxSOCKET_LOST, .uninstall .wxSOCKET_LOST]

/-- A state whose slots are sentinel while the host still holds a
registration 9 for the socket. -/
def leakedWorld : World :=
  { socket := wxSocketImplUnix.ctor { self := 1, m_fd := 3, m_server := false }
    host :=
      { regs := [{ handle := 9, handler := 1, fd := 3, dir := .FD_INPUT }]
        calls := [] }
    asserts := []
    closed := [] }

/-- The connector socket after `wxSOCKET_INPUT` and `wxSOCKET_OUTPUT` have
been installed: the slots hold the handles 1 and 2. -/
def bothRegisteredWorld : World :=
  Install_Callback freshManager registeredWorld .wxSOCKET_OUTPUT

/-- A sample definition for `DoEnableEvents`, which the header leaves open:
install, or uninstall, the input and the output callback. -/
def sampleDoEnableEvents (m : wxSocketInputBasedManager) (enable : Bool) (w : World) : World :=
  if enable then
    Install_Callback m (Install_Callback m w .wxSOCKET_INPUT) .wxSOCKET_OUTPUT
  else
    Uninstall_Callback m (Uninstall_Callback m w .wxSOCKET_INPUT) .wxSOCKET_OUTPUT

/-- The fresh connector socket with events off (`m_use_events` false) and the
input callback wanted. -/
def eventsOffWorld : EventWorld :=
  { world := { freshWorld with socket := freshWorld.socket.EnableCallback 1 }
    enableCalls := []
    ioctls := [] }

/-- The fresh connector socket with events on (`m_use_events` true). -/
def eventsOnWorld : EventWorld :=
  { world := { freshWorld with socket := { freshWorld.socket with m_use_events := true } }
    enableCalls := []
    ioctls := [] }

/-- A socket whose descriptor is invalid while its input slot still holds the
handle 5. -/
def invalidFdWorld : World :=
  { socket :=
      { self := 1, m_fd := -1, m_server := false, m_use_events := false,
        m_fds := (5, -1), m_enabledCallbacks := 0 }
    host :=
      { regs := [{ handle := 5, handler := 1, fd := 3, dir := .FD_INPUT }]
        calls := [] }
    asserts := []
    closed := [] }

/-! ## Theorems -/

/-- C1: for either role, `GetDirForEvent` maps `wxSOCKET_INPUT` to `FD_INPUT`,
`wxSOCKET_OUTPUT` to `FD_OUTPUT` and `wxSOCKET_LOST` to `FD_INPUT`, and maps
`wxSOCKET_CONNECTION` to `FD_INPUT` for a listener (`m_server` true) and to
`FD_OUTPUT` for a connector (`m_server` false). -/
theorem GetDirForEvent_table (socket : wxSocketImplUnix) :
    (GetDirForEvent socket .wxSOCKET_INPUT).dir = .FD_INPUT ∧
    (GetDirForEvent socket .wxSOCKET_OUTPUT).dir = .FD_OUTPUT ∧
    (GetDirForEvent socket .wxSOCKET_LOST).dir = .FD_INPUT ∧
    (GetDirForEvent socket .wxSOCKET_CONNECTION).dir =
      (if socket.m_server = true then SocketDir.FD_INPUT else SocketDir.FD_OUTPUT) ∧
    (GetDirForEvent { socket with m_server := true } .wxSOCKET_CONNECTION).dir = .FD_INPUT ∧
    (GetDirForEvent { socket with m_server := false } .wxSOCKET_CONNECTION).dir
      = .FD_OUTPUT :=
  ⟨rfl, rfl, rfl, rfl, rfl, rfl⟩

/-! ### Auxiliary facts -/

theorem FD_setFD_same (s : wxSocketImplUnix) (d : SocketDir) (v : Int) :
    FD (setFD s d v) d = v := by
  cases d <;> rfl

theorem FD_setFD_other (s : wxSocketImplUnix) (d : SocketDir) (v : Int) :
    FD (setFD s d v) d.other = FD s d.other := by
  cases d <;> rfl

theorem FD_setFD_of_ne (s : wxSocketImplUnix) (d c : SocketDir) (v : Int) (h : c ≠ d) :
    FD (setFD s d v) c = FD s c := by
  cases d <;> cases c <;> first | rfl | exact absurd rfl h

theorem setFD_frame (s : wxSocketImplUnix) (d : SocketDir) (v : Int) :
    (setFD s d v).self = s.self ∧ (setFD s d v).m_fd = s.m_fd ∧
    (setFD s d v).m_server = s.m_server ∧ (setFD s d v).m_use_events = s.m_use_events ∧
    (setFD s d v).m_enabledCallbacks = s.m_enabledCallbacks := by
  cases d <;> exact ⟨rfl, rfl, rfl, rfl, rfl⟩

theorem setFD_sentinel_of_sentinel (s : wxSocketImplUnix) (d : SocketDir) (h : FD s d = -1) :
    setFD s d (-1) = s := by
  cases d
  · simp only [FD] at h
    simp only [setFD, ← h]
  · simp only [FD] at h
    simp only [setFD, ← h]

theorem mem_ownedHandles (w : World) (h : Int) :
    h ∈ ownedHandles w ↔ ∃ r ∈ w.host.regs, r.handler = w.socket.self ∧ r.handle = h := by
  simp [ownedHandles, and_assoc]

theorem mem_slotHandles (s : wxSocketImplUnix) (h : Int) :
    h ∈ slotHandles s ↔ h ≠ -1 ∧ (h = FD s .FD_INPUT ∨ h = FD s .FD_OUTPUT) := by
  simp only [slotHandles, FD, List.mem_filter, List.mem_cons, List.mem_singleton,
    List.not_mem_nil, or_false, decide_eq_true_eq]
  tauto

theorem dir_cases (d c : SocketDir) : c = d ∨ c = d.other := by
  cases d <;> cases c <;> simp [SocketDir.other]

theorem mem_slotHandles_dir (s : wxSocketImplUnix) (d : SocketDir) (h : Int) :
    h ∈ slotHandles s ↔ h ≠ -1 ∧ (h = FD s d ∨ h = FD s d.other) := by
  rw [mem_slotHandles]
  cases d
  · exact Iff.rfl
  · simp only [SocketDir.other]
    tauto

theorem Uninstall_Callback_socket (m : wxSocketInputBasedManager) (w : World)
    (event : wxSocketNotify) :
    (Uninstall_Callback m w event).socket
      = setFD w.socket (GetDirForEvent w.socket event).dir (-1) := by
  unfold Uninstall_Callback
  by_cases h : FD w.socket (GetDirForEvent w.socket event).dir = -1
  · simp [h, setFD_sentinel_of_sentinel]
  · simp [h]

theorem Uninstall_Callback_host (m : wxSocketInputBasedManager) (w : World)
    (event : wxSocketNotify) :
    (Uninstall_Callback m w event).host
      = if FD w.socket (GetDirForEvent w.socket event).dir ≠ -1
        then RemoveInput w.host (FD w.socket (GetDirForEvent w.socket event).dir)
        else w.host := by
  unfold Uninstall_Callback
  by_cases h : FD w.socket (GetDirForEvent w.socket event).dir = -1
  · simp [h]
  · simp [h]

theorem slotHostConsistent_iff (w : World) (d : SocketDir) :
    SlotHostConsistent w ↔
      ∀ h, (∃ r ∈ w.host.regs, r.handler = w.socket.self ∧ r.handle = h) ↔
        (h ≠ -1 ∧ (h = FD w.socket d ∨ h = FD w.socket d.other)) := by
  unfold SlotHostConsistent
  constructor
  · rintro ⟨h1, h2⟩ h
    rw [← mem_ownedHandles, ← mem_slotHandles_dir]
    exact ⟨h1 h, h2 h⟩
  · intro hh
    constructor
    · intro h hm
      rw [mem_slotHandles_dir _ d, ← hh, ← mem_ownedHandles]
      exact hm
    · intro h hm
      rw [mem_ownedHandles, hh, ← mem_slotHandles_dir]
      exact hm

theorem setFD_setFD (s : wxSocketImplUnix) (d : SocketDir) (a b : Int) :
    setFD (setFD s d a) d b = setFD s d b := by
  cases d <;> rfl

theorem le_foldr_max (l : List Nat) : ∀ x ∈ l, x ≤ l.foldr max 0 := by
  induction l with
  | nil => intro x hx; cases hx
  | cons a l ih =>
    intro x hx
    rcases List.mem_cons.1 hx with rfl | hx
    · exact le_max_left _ _
    · exact le_trans (ih x hx) (le_max_right _ _)

theorem freshManager_fresh : AddInputFresh freshManager := by
  intro host handler fd d
  constructor
  · simp only [freshManager]
    omega
  · intro r hr
    have h1 : r.handle.natAbs ≤ (host.regs.map (fun r => r.handle.natAbs)).foldr max 0 :=
      le_foldr_max _ _ (List.mem_map_of_mem _ hr)
    simp only [freshManager]
    omega

theorem addInputValid_of_fresh (m : wxSocketInputBasedManager) (h : AddInputFresh m) :
    AddInputValid m :=
  fun host handler fd d => (h host handler fd d).1

theorem GetDirForEvent_congr (s s1 : wxSocketImplUnix) (event : wxSocketNotify)
    (h : s1.m_server = s.m_server) : GetDirForEvent s1 event = GetDirForEvent s event := by
  cases event <;> simp [GetDirForEvent, h]

theorem Install_Callback_frame (m : wxSocketInputBasedManager) (w : World)
    (event : wxSocketNotify) :
    (Install_Callback m w event).socket.self = w.socket.self ∧
    (Install_Callback m w event).socket.m_fd = w.socket.m_fd ∧
    (Install_Callback m w event).socket.m_server = w.socket.m_server := by
  unfold Install_Callback
  by_cases hfd : w.socket.m_fd = -1
  · rw [if_pos hfd]
    exact ⟨rfl, rfl, rfl⟩
  · rw [if_neg hfd]
    exact ⟨(setFD_frame _ _ _).1, (setFD_frame _ _ _).2.1, (setFD_frame _ _ _).2.2.1⟩

theorem Uninstall_Callback_frame (m : wxSocketInputBasedManager) (w : World)
    (event : wxSocketNotify) :
    (Uninstall_Callback m w event).socket.self = w.socket.self ∧
    (Uninstall_Callback m w event).socket.m_fd = w.socket.m_fd ∧
    (Uninstall_Callback m w event).socket.m_server = w.socket.m_server := by
  rw [Uninstall_Callback_socket]
  exact ⟨(setFD_frame _ _ _).1, (setFD_frame _ _ _).2.1, (setFD_frame _ _ _).2.2.1⟩

theorem applyOp_frame (m : wxSocketInputBasedManager) (w : World) (op : Op) :
    (applyOp m w op).socket.self = w.socket.self ∧
    (applyOp m w op).socket.m_fd = w.socket.m_fd ∧
    (applyOp m w op).socket.m_server = w.socket.m_server := by
  cases op
  · exact Install_Callback_frame m w _
  · exact Uninstall_Callback_frame m w _

theorem runOps_frame (m : wxSocketInputBasedManager) (ops : List Op) :
    ∀ w : World, (runOps m w ops).socket.self = w.socket.self ∧
      (runOps m w ops).socket.m_fd = w.socket.m_fd ∧
      (runOps m w ops).socket.m_server = w.socket.m_server := by
  induction ops with
  | nil => intro w; exact ⟨rfl, rfl, rfl⟩
  | cons op ops ih =>
    intro w
    obtain ⟨h1, h2, h3⟩ := ih (applyOp m w op)
    obtain ⟨g1, g2, g3⟩ := applyOp_frame m w op
    exact ⟨h1.trans g1, h2.trans g2, h3.trans g3⟩

theorem runOps_cons (m : wxSocketInputBasedManager) (w : World) (op : Op) (ops : List Op) :
    runOps m w (op :: ops) = runOps m (applyOp m w op) ops :=
  rfl

theorem runOps_append (m : wxSocketInputBasedManager) (w : World) (a b : List Op) :
    runOps m w (a ++ b) = runOps m (runOps m w a) b := by
  simp [runOps, List.foldl_append]

theorem Install_Callback_slot (m : wxSocketInputBasedManager) (w : World)
    (event : wxSocketNotify) (hfd : w.socket.m_fd ≠ -1) :
    (Install_Callback m w event).socket
      = setFD w.socket (GetDirForEvent w.socket event).dir
          (m.newHandle
            (if FD w.socket (GetDirForEvent w.socket event).dir ≠ -1
              then RemoveInput w.host (FD w.socket (GetDirForEvent w.socket event).dir)
              else w.host)
            w.socket.self w.socket.m_fd (GetDirForEvent w.socket event).dir) := by
  unfold Install_Callback
  rw [if_neg hfd]
  rfl

theorem Install_Callback_socket_invalid (m : wxSocketInputBasedManager) (w : World)
    (event : wxSocketNotify) (hfd : w.socket.m_fd = -1) :
    (Install_Callback m w event).socket = w.socket ∧
    (Install_Callback m w event).host = w.host := by
  unfold Install_Callback
  rw [if_pos hfd]
  exact ⟨rfl, rfl⟩

theorem applyOp_other_dir (m : wxSocketInputBasedManager) (w : World) (op : Op)
    (d : SocketDir) (h : (GetDirForEvent w.socket op.event).dir ≠ d) :
    FD (applyOp m w op).socket d = FD w.socket d := by
  cases op with
  | install e =>
    by_cases hfd : w.socket.m_fd = -1
    · simp only [applyOp, (Install_Callback_socket_invalid m w e hfd).1]
    · simp only [applyOp, Install_Callback_slot m w e hfd]
      exact FD_setFD_of_ne _ _ _ _ (Ne.symm h)
  | uninstall e =>
    simp only [applyOp, Uninstall_Callback_socket]
    exact FD_setFD_of_ne _ _ _ _ (Ne.symm h)

theorem runOps_other_dir (m : wxSocketInputBasedManager) (d : SocketDir) (ops : List Op) :
    ∀ w : World, (∀ op ∈ ops, (GetDirForEvent w.socket op.event).dir ≠ d) →
      FD (runOps m w ops).socket d = FD w.socket d := by
  induction ops with
  | nil => intro w _; rfl
  | cons op ops ih =>
    intro w h
    have h1 := h op (List.mem_cons_self _ _)
    have step : FD (runOps m (applyOp m w op) ops).socket d = FD (applyOp m w op).socket d := by
      apply ih
      intro x hx
      rw [GetDirForEvent_congr w.socket _ _ (applyOp_frame m w op).2.2]
      exact h x (List.mem_cons_of_mem _ hx)
    exact step.trans (applyOp_other_dir m w op d h1)

theorem last_split (p : Op → Prop) [DecidablePred p] (l : List Op) :
    (∀ x ∈ l, ¬ p x) ∨
      ∃ pre x post, l = pre ++ x :: post ∧ p x ∧ ∀ y ∈ post, ¬ p y := by
  induction l with
  | nil => exact Or.inl (fun x hx => by cases hx)
  | cons a l ih =>
    rcases ih with hnone | ⟨pre, x, post, rfl, hx, hpost⟩
    · by_cases ha : p a
      · exact Or.inr ⟨[], a, l, rfl, ha, hnone⟩
      · left
        intro x hx
        rcases List.mem_cons.1 hx with rfl | hx
        · exact ha
        · exact hnone x hx
    · exact Or.inr ⟨a :: pre, x, post, rfl, hx, hpost⟩

theorem Uninstall_Callback_clears (m : wxSocketInputBasedManager) (w : World)
    (event : wxSocketNotify) :
    FD (Uninstall_Callback m w event).socket (GetDirForEvent w.socket event).dir = -1 := by
  rw [Uninstall_Callback_socket, FD_setFD_same]

theorem Install_Callback_sets (m : wxSocketInputBasedManager) (w : World)
    (event : wxSocketNotify) (hfd : w.socket.m_fd ≠ -1) (hvalid : AddInputValid m) :
    FD (Install_Callback m w event).socket (GetDirForEvent w.socket event).dir ≠ -1 := by
  rw [Install_Callback_slot m w event hfd, FD_setFD_same]
  exact hvalid _ _ _ _

/-! ### Slot/host consistency -/

theorem slotRegistration_setFD_same (s : wxSocketImplUnix) (d : SocketDir) (v : Int) :
    slotRegistration (setFD s d v) d
      = { handle := v, handler := s.self, fd := s.m_fd, dir := d } := by
  cases d <;> rfl

theorem slotRegistration_setFD_of_ne (s : wxSocketImplUnix) (d c : SocketDir) (v : Int)
    (h : c ≠ d) : slotRegistration (setFD s d v) c = slotRegistration s c := by
  cases d <;> cases c <;> first | rfl | exact absurd rfl h

theorem slotHostAgree_iff (w : World) :
    SlotHostAgree w ↔
      ∀ r, (r ∈ w.host.regs ∧ r.handler = w.socket.self) ↔
        (r.handle ≠ -1 ∧ r = slotRegistration w.socket r.dir) := by
  unfold SlotHostAgree
  constructor
  · rintro ⟨h1, h2⟩ r
    constructor
    · rintro ⟨hr, hown⟩
      exact h1 r hr hown
    · rintro ⟨hne, hr⟩
      have hh : r.handle = FD w.socket r.dir := congrArg Registration.handle hr
      have hmem : slotRegistration w.socket r.dir ∈ w.host.regs := by
        apply h2
        · cases r.dir <;> simp
        · rw [← hh]
          exact hne
      rw [← hr] at hmem
      exact ⟨hmem, congrArg Registration.handler hr⟩
  · intro h
    constructor
    · intro r hr hown
      exact (h r).1 ⟨hr, hown⟩
    · intro d _ hd
      exact ((h (slotRegistration w.socket d)).2 ⟨hd, rfl⟩).1

theorem slotHostAgree_distinct (w : World) (hu : HandlesUnique w.host) (ha : SlotHostAgree w)
    (d : SocketDir) (hd : FD w.socket d ≠ -1) : FD w.socket d ≠ FD w.socket d.other := by
  intro heq
  rw [slotHostAgree_iff] at ha
  have h1 := ((ha (slotRegistration w.socket d)).2 ⟨hd, rfl⟩).1
  have hd2 : FD w.socket d.other ≠ -1 := by
    rw [← heq]
    exact hd
  have h2 := ((ha (slotRegistration w.socket d.other)).2 ⟨hd2, rfl⟩).1
  have := List.inj_on_of_nodup_map hu h1 h2 heq
  have hdir : d = d.other := congrArg Registration.dir this
  cases d <;> cases hdir

theorem slotHostAgree_consequences (w : World) (ha : SlotHostAgree w) :
    SlotHostConsistent w ∧ SlotIffRegistered w := by
  rw [slotHostAgree_iff] at ha
  refine ⟨⟨?_, ?_⟩, ?_⟩
  · intro h hmem
    obtain ⟨r, hr, hown, rfl⟩ := (mem_ownedHandles w h).1 hmem
    obtain ⟨hne, hreg⟩ := (ha r).1 ⟨hr, hown⟩
    have hh : r.handle = FD w.socket r.dir := congrArg Registration.handle hreg
    rw [mem_slotHandles]
    refine ⟨hne, ?_⟩
    cases hdir : r.dir
    · exact Or.inl (hdir ▸ hh)
    · exact Or.inr (hdir ▸ hh)
  · intro h hmem
    rw [mem_slotHandles] at hmem
    rw [mem_ownedHandles]
    obtain ⟨hne, hor⟩ := hmem
    rcases hor with e | e
    · subst e
      obtain ⟨hr, hown⟩ := (ha (slotRegistration w.socket .FD_INPUT)).2 ⟨hne, rfl⟩
      exact ⟨_, hr, hown, rfl⟩
    · subst e
      obtain ⟨hr, hown⟩ := (ha (slotRegistration w.socket .FD_OUTPUT)).2 ⟨hne, rfl⟩
      exact ⟨_, hr, hown, rfl⟩
  · intro d
    constructor
    · intro hd
      obtain ⟨hr, hown⟩ := (ha (slotRegistration w.socket d)).2 ⟨hd, rfl⟩
      exact ⟨_, hr, hown, rfl⟩
    · rintro ⟨r, hr, hown, rfl⟩
      obtain ⟨hne, hreg⟩ := (ha r).1 ⟨hr, hown⟩
      have hh : r.handle = FD w.socket r.dir := congrArg Registration.handle hreg
      rw [← hh]
      exact hne

theorem slotHostAgree_congr (w w1 : World) (hs : w1.socket = w.socket) (hh : w1.host = w.host)
    (h : HandlesUnique w.host ∧ SlotHostAgree w) :
    HandlesUnique w1.host ∧ SlotHostAgree w1 := by
  unfold SlotHostAgree at h ⊢
  rw [hs, hh]
  exact h

theorem slotHostAgree_uninstall_dir (w w1 : World) (d : SocketDir)
    (hs : w1.socket = setFD w.socket d (-1))
    (hh : w1.host = if FD w.socket d ≠ -1 then RemoveInput w.host (FD w.socket d) else w.host)
    (hinv : HandlesUnique w.host ∧ SlotHostAgree w) :
    HandlesUnique w1.host ∧ SlotHostAgree w1 := by
  by_cases hfd : FD w.socket d = -1
  · rw [setFD_sentinel_of_sentinel _ _ hfd] at hs
    simp only [hfd, ne_eq, not_true_eq_false, if_false] at hh
    exact slotHostAgree_congr w w1 hs hh hinv
  · obtain ⟨hu, ha⟩ := hinv
    have hne := slotHostAgree_distinct w hu ha d hfd
    simp only [ne_eq, hfd, not_false_eq_true, if_true] at hh
    constructor
    · rw [hh]
      exact List.Nodup.sublist (List.Sublist.map _ (List.filter_sublist _)) hu
    · rw [slotHostAgree_iff] at ha ⊢
      intro r
      rw [hs, hh, (setFD_frame _ _ _).1]
      simp only [RemoveInput, List.mem_filter, decide_eq_true_eq]
      constructor
      · rintro ⟨⟨hr, hrne⟩, hown⟩
        obtain ⟨hn1, hreg⟩ := (ha r).1 ⟨hr, hown⟩
        have hh1 : r.handle = FD w.socket r.dir := congrArg Registration.handle hreg
        have hdir : r.dir ≠ d := by
          intro e
          rw [e] at hh1
          exact hrne hh1
        refine ⟨hn1, ?_⟩
        rw [slotRegistration_setFD_of_ne _ _ _ _ hdir]
        exact hreg
      · rintro ⟨hn1, hreg⟩
        have hdir : r.dir ≠ d := by
          intro e
          have hh1 : r.handle = FD (setFD w.socket d (-1)) r.dir :=
            congrArg Registration.handle hreg
          rw [e, FD_setFD_same] at hh1
          exact hn1 hh1
        rw [slotRegistration_setFD_of_ne _ _ _ _ hdir] at hreg
        obtain ⟨hr, hown⟩ := (ha r).2 ⟨hn1, hreg⟩
        refine ⟨⟨hr, ?_⟩, hown⟩
        have hh1 : r.handle = FD w.socket r.dir := congrArg Registration.handle hreg
        have hother : r.dir = d.other := by
          rcases dir_cases d r.dir with e | e
          · exact absurd e hdir
          · exact e
        rw [hh1, hother]
        exact fun e => hne e.symm

theorem slotHostAgree_add_dir (w w1 : World) (d : SocketDir) (h : Int)
    (hsent : FD w.socket d = -1) (hfresh : FreshHandle w.host h)
    (hs : w1.socket = setFD w.socket d h)
    (hh : w1.host.regs
      = w.host.regs
        ++ [{ handle := h, handler := w.socket.self, fd := w.socket.m_fd, dir := d }])
    (hinv : HandlesUnique w.host ∧ SlotHostAgree w) :
    HandlesUnique w1.host ∧ SlotHostAgree w1 := by
  obtain ⟨hu, ha⟩ := hinv
  obtain ⟨hne, hnew⟩ := hfresh
  constructor
  · unfold HandlesUnique at hu ⊢
    rw [hh, List.map_append, List.nodup_append]
    refine ⟨hu, List.nodup_singleton _, ?_⟩
    intro x hx hx1
    simp only [List.map_cons, List.map_nil, List.mem_singleton] at hx1
    obtain ⟨r, hr, hrx⟩ := List.mem_map.1 hx
    exact hnew r hr (hrx.trans hx1)
  · rw [slotHostAgree_iff] at ha ⊢
    intro r
    rw [hs, hh, (setFD_frame _ _ _).1]
    simp only [List.mem_append, List.mem_singleton]
    constructor
    · rintro ⟨hr | hr, hown⟩
      · obtain ⟨hn1, hreg⟩ := (ha r).1 ⟨hr, hown⟩
        have hh1 : r.handle = FD w.socket r.dir := congrArg Registration.handle hreg
        have hdir : r.dir ≠ d := by
          intro e
          rw [e, hsent] at hh1
          exact hn1 hh1
        refine ⟨hn1, ?_⟩
        rw [slotRegistration_setFD_of_ne _ _ _ _ hdir]
        exact hreg
      · subst hr
        refine ⟨hne, ?_⟩
        rw [slotRegistration_setFD_same]
    · rintro ⟨hn1, hreg⟩
      by_cases hdir : r.dir = d
      · rw [hdir, slotRegistration_setFD_same] at hreg
        exact ⟨Or.inr hreg, by rw [hreg]⟩
      · rw [slotRegistration_setFD_of_ne _ _ _ _ hdir] at hreg
        obtain ⟨hr, hown⟩ := (ha r).2 ⟨hn1, hreg⟩
        exact ⟨Or.inl hr, hown⟩

theorem slotHostAgree_Uninstall_Callback (m : wxSocketInputBasedManager) (w : World)
    (event : wxSocketNotify) (hinv : HandlesUnique w.host ∧ SlotHostAgree w) :
    HandlesUnique (Uninstall_Callback m w event).host ∧
      SlotHostAgree (Uninstall_Callback m w event) :=
  slotHostAgree_uninstall_dir w _ _ (Uninstall_Callback_socket m w event)
    (Uninstall_Callback_host m w event) hinv

theorem slotHostAgree_Install_Callback (m : wxSocketInputBasedManager) (w : World)
    (event : wxSocketNotify) (hfresh : AddInputFresh m)
    (hinv : HandlesUnique w.host ∧ SlotHostAgree w) :
    HandlesUnique (Install_Callback m w event).host ∧
      SlotHostAgree (Install_Callback m w event) := by
  unfold Install_Callback
  by_cases hfd : w.socket.m_fd = -1
  · rw [if_pos hfd]
    exact slotHostAgree_congr w _ rfl rfl hinv
  · rw [if_neg hfd]
    dsimp only
    generalize (GetDirForEvent w.socket event).dir = d
    generalize hh1 : (if FD w.socket d ≠ -1 then RemoveInput w.host (FD w.socket d)
      else w.host) = host1
    have hmid : HandlesUnique host1 ∧
        SlotHostAgree { w with socket := setFD w.socket d (-1), host := host1 } :=
      slotHostAgree_uninstall_dir w { w with socket := setFD w.socket d (-1), host := host1 }
        d rfl hh1.symm hinv
    have key := slotHostAgree_add_dir
      { w with socket := setFD w.socket d (-1), host := host1 }
      { w with
        socket := setFD w.socket d (AddInput m host1 w.socket.self w.socket.m_fd d).1
        host := (AddInput m host1 w.socket.self w.socket.m_fd d).2
        asserts := w.asserts ++ (GetDirForEvent w.socket event).asserts }
      d (m.newHandle host1 w.socket.self w.socket.m_fd d)
      (FD_setFD_same _ _ _) (hfresh host1 _ _ _)
      (by simp only [AddInput, setFD_setFD])
      (by simp only [AddInput, (setFD_frame _ _ _).1, (setFD_frame _ _ _).2.1])
      hmid
    exact key

theorem slotHostAgree_DoClose (manager : Option wxSocketInputBasedManager) (w : World)
    (hinv : HandlesUnique w.host ∧ SlotHostAgree w) :
    HandlesUnique (DoClose manager w).host ∧ SlotHostAgree (DoClose manager w) := by
  unfold DoClose
  cases manager with
  | none => exact slotHostAgree_congr w _ rfl rfl hinv
  | some m =>
    exact slotHostAgree_congr _ _ rfl rfl
      (slotHostAgree_Uninstall_Callback m _ _ (slotHostAgree_Uninstall_Callback m _ _ hinv))

theorem slotHostAgree_ctor (base : wxSocketImpl) (host : Host) (asserts : List String)
    (closed : List Int) (hnone : ∀ r ∈ host.regs, r.handler ≠ base.self) :
    SlotHostAgree
      { socket := wxSocketImplUnix.ctor base, host := host, asserts := asserts,
        closed := closed } := by
  constructor
  · intro r hr hown
    exact absurd hown (hnone r hr)
  · intro d _ hd
    cases d <;> exact absurd rfl hd

/-- C2: slot/host consistency is an invariant of the registration operations.
Assume that `AddInput` returns a non-sentinel handle that is not active, and
take a state whose host names each active registration by a handle of its
own and in which the registrations the host holds for the socket are exactly
the registrations of the non-sentinel slots (with the socket's descriptor and
the slot's direction). Then for every event the same holds after
`Install_Callback`, after `Uninstall_Callback` and after `DoClose`, with or
without a socket manager: in each resulting state the set of the handles of
the socket's registrations equals the set of the non-sentinel values in
`m_fds`, slot `d` is non-sentinel if and only if the host has an active
registration of the socket for direction `d`, and the handles of the host
are still pairwise distinct. -/
theorem slot_host_consistency_preserved (m : wxSocketInputBasedManager)
    (manager : Option wxSocketInputBasedManager) (w : World) (event : wxSocketNotify)
    (hfresh : AddInputFresh m) (hunique : HandlesUnique w.host) (hagree : SlotHostAgree w) :
    (SlotHostAgree (Install_Callback m w event) ∧
      HandlesUnique (Install_Callback m w event).host ∧
      SlotHostConsistent (Install_Callback m w event) ∧
      SlotIffRegistered (Install_Callback m w event)) ∧
    (SlotHostAgree (Uninstall_Callback m w event) ∧
      HandlesUnique (Uninstall_Callback m w event).host ∧
      SlotHostConsistent (Uninstall_Callback m w event) ∧
      SlotIffRegistered (Uninstall_Callback m w event)) ∧
    (SlotHostAgree (DoClose manager w) ∧
      HandlesUnique (DoClose manager w).host ∧
      SlotHostConsistent (DoClose manager w) ∧
      SlotIffRegistered (DoClose manager w)) := by
  have hi := slotHostAgree_Install_Callback m w event hfresh ⟨hunique, hagree⟩
  have hu := slotHostAgree_Uninstall_Callback m w event ⟨hunique, hagree⟩
  have hd := slotHostAgree_DoClose manager w ⟨hunique, hagree⟩
  exact ⟨⟨hi.2, hi.1, slotHostAgree_consequences _ hi.2⟩,
    ⟨hu.2, hu.1, slotHostAgree_consequences _ hu.2⟩,
    ⟨hd.2, hd.1, slotHostAgree_consequences _ hd.2⟩⟩

/-- Witness of C2: the socket with the input handle 1 and the output handle 2
registered, and the event `wxSOCKET_INPUT`: `Install_Callback` replaces the
input registration, `Uninstall_Callback` removes it and `DoClose` removes
both. -/
theorem slot_host_consistency_preserved_witness :
    (AddInputFresh freshManager ∧ HandlesUnique bothRegisteredWorld.host ∧
      SlotHostAgree bothRegisteredWorld ∧ bothRegisteredWorld.socket.m_fds = (1, 2)) ∧
    ((Install_Callback freshManager bothRegisteredWorld .wxSOCKET_INPUT).socket.m_fds = (3, 2) ∧
      (Uninstall_Callback freshManager bothRegisteredWorld .wxSOCKET_INPUT).socket.m_fds
        = (-1, 2) ∧
      (DoClose (some freshManager) bothRegisteredWorld).socket.m_fds = (-1, -1)) ∧
    ((SlotHostAgree (Install_Callback freshManager bothRegisteredWorld .wxSOCKET_INPUT) ∧
      HandlesUnique (Install_Callback freshManager bothRegisteredWorld .wxSOCKET_INPUT).host ∧
      SlotHostConsistent (Install_Callback freshManager bothRegisteredWorld .wxSOCKET_INPUT) ∧
      SlotIffRegistered (Install_Callback freshManager bothRegisteredWorld .wxSOCKET_INPUT)) ∧
    (SlotHostAgree (Uninstall_Callback freshManager bothRegisteredWorld .wxSOCKET_INPUT) ∧
      HandlesUnique (Uninstall_Callback freshManager bothRegisteredWorld .wxSOCKET_INPUT).host ∧
      SlotHostConsistent (Uninstall_Callback freshManager bothRegisteredWorld .wxSOCKET_INPUT) ∧
      SlotIffRegistered (Uninstall_Callback freshManager bothRegisteredWorld .wxSOCKET_INPUT)) ∧
    (SlotHostAgree (DoClose (some freshManager) bothRegisteredWorld) ∧
      HandlesUnique (DoClose (some freshManager) bothRegisteredWorld).host ∧
      SlotHostConsistent (DoClose (some freshManager) bothRegisteredWorld) ∧
      SlotIffRegistered (DoClose (some freshManager) bothRegisteredWorld))) :=
  ⟨⟨freshManager_fresh, by decide, by decide, by decide⟩,
   ⟨by decide, by decide, by decide⟩,
   slot_host_consistency_preserved freshManager (some freshManager) bothRegisteredWorld
     .wxSOCKET_INPUT freshManager_fresh (by decide) (by decide)⟩

/-! ### Sequences of enable and disable calls -/

/-- C3, the claim as stated fails: from the fresh socket, after enabling
`wxSOCKET_INPUT`, enabling `wxSOCKET_LOST` and disabling `wxSOCKET_LOST`, the
event `wxSOCKET_INPUT` is still enabled and resolves to `FD_INPUT`, but the
input slot is the sentinel: the disable call cleared the registration although
it was not the last enabled event of that direction. -/
theorem enabled_event_slot_cleared :
    AddInputFresh freshManager ∧ freshWorld.socket.m_fd ≠ -1 ∧
    freshWorld.socket.m_fds = (-1, -1) ∧
    wxSocketNotify.wxSOCKET_INPUT ∈ enabledAfter lostOffOps ∧
    ¬ (FD (runOps freshManager freshWorld lostOffOps).socket .FD_INPUT ≠ -1 ↔
        ∃ e ∈ enabledAfter lostOffOps,
          (GetDirForEvent freshWorld.socket e).dir = .FD_INPUT) :=
  ⟨freshManager_fresh, by decide, by decide, by decide, by decide⟩

/-- C3, amended: for a socket with a valid descriptor and both slots
sentinel, and a host whose `AddInput` never returns the sentinel, after any
finite sequence of `Install_Callback` and `Uninstall_Callback` calls the slot
of direction `d` is non-sentinel if and only if the last call of the sequence
whose event resolves to `d` is an `Install_Callback`; and an
`Uninstall_Callback` at the end of any sequence leaves the slot of its
direction sentinel, whichever events are enabled. -/
theorem slot_registered_iff_last_call_installs (m : wxSocketInputBasedManager) (w : World)
    (ops : List Op) (d : SocketDir) (hvalid : AddInputValid m)
    (hfd : w.socket.m_fd ≠ -1) (hslots : w.socket.m_fds = (-1, -1)) :
    (FD (runOps m w ops).socket d ≠ -1 ↔
      ∃ pre e post, ops = pre ++ Op.install e :: post ∧
        (GetDirForEvent w.socket e).dir = d ∧
        ∀ op ∈ post, (GetDirForEvent w.socket op.event).dir ≠ d) ∧
    (∀ e, FD (runOps m w (ops ++ [Op.uninstall e])).socket
        (GetDirForEvent w.socket e).dir = -1) := by
  have hstart : FD w.socket d = -1 := by
    cases d <;> simp [FD, hslots]
  have hpost : ∀ (w1 : World) (post : List Op), w1.socket.m_server = w.socket.m_server →
      (∀ op ∈ post, (GetDirForEvent w.socket op.event).dir ≠ d) →
      FD (runOps m w1 post).socket d = FD w1.socket d := by
    intro w1 post hsrv hp
    apply runOps_other_dir
    intro op hop
    rw [GetDirForEvent_congr w.socket _ _ hsrv]
    exact hp op hop
  constructor
  · constructor
    · intro hne
      rcases last_split (fun op => (GetDirForEvent w.socket op.event).dir = d) ops with
        hnone | ⟨pre, x, post, rfl, hx, hp⟩
      · exact absurd ((runOps_other_dir m d ops w hnone).trans hstart) hne
      · cases x with
        | install e => exact ⟨pre, e, post, rfl, hx, hp⟩
        | uninstall e =>
          exfalso
          apply hne
          have hsrv := (runOps_frame m pre w).2.2
          rw [runOps_append, runOps_cons]
          rw [hpost _ post ((applyOp_frame m _ _).2.2.trans hsrv) hp]
          simp only [applyOp]
          have hcl := Uninstall_Callback_clears m (runOps m w pre) e
          rw [GetDirForEvent_congr w.socket _ _ hsrv] at hcl
          simp only [Op.event] at hx
          rw [hx] at hcl
          exact hcl
    · rintro ⟨pre, e, post, rfl, hx, hp⟩
      have hsrv := (runOps_frame m pre w).2.2
      rw [runOps_append, runOps_cons]
      rw [hpost _ post ((applyOp_frame m _ _).2.2.trans hsrv) hp]
      simp only [applyOp]
      have hset := Install_Callback_sets m (runOps m w pre) e
        (by rw [(runOps_frame m pre w).2.1]; exact hfd) hvalid
      rw [GetDirForEvent_congr w.socket _ _ hsrv, hx] at hset
      exact hset
  · intro e
    have hsrv := (runOps_frame m ops w).2.2
    rw [runOps_append, runOps_cons]
    simp only [runOps, List.foldl_nil, applyOp]
    have hcl := Uninstall_Callback_clears m (runOps m w ops) e
    rw [GetDirForEvent_congr w.socket _ _ hsrv] at hcl
    exact hcl

/-- Witness of C3: the fresh connector socket and the sequence enable input,
enable connection-lost, disable connection-lost, for the input direction. -/
theorem slot_registered_iff_last_call_installs_witness :
    AddInputValid freshManager ∧ freshWorld.socket.m_fd ≠ -1 ∧
    freshWorld.socket.m_fds = (-1, -1) ∧
    ((FD (runOps freshManager freshWorld lostOffOps).socket .FD_INPUT ≠ -1 ↔
      ∃ pre e post, lostOffOps = pre ++ Op.install e :: post ∧
        (GetDirForEvent freshWorld.socket e).dir = .FD_INPUT ∧
        ∀ op ∈ post, (GetDirForEvent freshWorld.socket op.event).dir ≠ .FD_INPUT) ∧
    (∀ e, FD (runOps freshManager freshWorld (lostOffOps ++ [Op.uninstall e])).socket
        (GetDirForEvent freshWorld.socket e).dir = -1)) :=
  ⟨addInputValid_of_fresh _ freshManager_fresh, by decide, by decide,
   slot_registered_iff_last_call_installs freshManager freshWorld lostOffOps .FD_INPUT
     (addInputValid_of_fresh _ freshManager_fresh) (by decide) (by decide)⟩

/-! ### Closing -/

theorem DoClose_some_socket (m : wxSocketInputBasedManager) (w : World) :
    (DoClose (some m) w).socket
      = setFD (setFD w.socket .FD_INPUT (-1)) .FD_OUTPUT (-1) := by
  simp only [DoClose, Uninstall_Callback_socket]
  rfl

theorem DoClose_some_host (m : wxSocketInputBasedManager) (w : World) :
    (DoClose (some m) w).host
      = (if FD w.socket .FD_OUTPUT ≠ -1
          then RemoveInput
            (if FD w.socket .FD_INPUT ≠ -1 then RemoveInput w.host (FD w.socket .FD_INPUT)
              else w.host)
            (FD w.socket .FD_OUTPUT)
          else
            (if FD w.socket .FD_INPUT ≠ -1 then RemoveInput w.host (FD w.socket .FD_INPUT)
              else w.host)) := by
  simp only [DoClose, Uninstall_Callback_host, Uninstall_Callback_socket]
  rfl

theorem DoClose_none (w : World) :
    (DoClose none w).socket = w.socket ∧ (DoClose none w).host = w.host :=
  ⟨rfl, rfl⟩

theorem DoClose_some_closed_slots (m : wxSocketInputBasedManager) (w : World)
    (h : w.socket.m_fds = (-1, -1)) :
    (DoClose (some m) w).socket = w.socket ∧ (DoClose (some m) w).host = w.host := by
  have h1 : FD w.socket .FD_INPUT = -1 := by simp [FD, h]
  have h2 : FD w.socket .FD_OUTPUT = -1 := by simp [FD, h]
  constructor
  · rw [DoClose_some_socket, setFD_sentinel_of_sentinel _ _ h1,
      setFD_sentinel_of_sentinel _ _ h2]
  · rw [DoClose_some_host]
    simp [h1, h2]

theorem DoClose_some_slots (m : wxSocketInputBasedManager) (w : World) :
    (DoClose (some m) w).socket.m_fds = (-1, -1) := by
  rw [DoClose_some_socket]
  rfl

/-- C4, the claim as stated fails, in two ways. Without a socket manager
(`wxSocketManager::Get()` null) `DoClose` skips the two `Uninstall_Callback`
calls, so the input slot of the socket with `wxSOCKET_INPUT` installed is not
the sentinel after it. With a manager, a registration of the socket that no
slot holds is still active after `DoClose`. -/
theorem DoClose_not_always_cleared :
    FD (DoClose none registeredWorld).socket .FD_INPUT ≠ -1 ∧
    SlotHostConsistent registeredWorld ∧
    ownedHandles (DoClose (some freshManager) leakedWorld) ≠ [] :=
  ⟨by decide, by decide, by decide⟩

theorem DoClose_some_regs_iff (m : wxSocketInputBasedManager) (w : World)
    (r : Registration) :
    r ∈ (DoClose (some m) w).host.regs ↔
      r ∈ w.host.regs ∧ (FD w.socket .FD_INPUT ≠ -1 → r.handle ≠ FD w.socket .FD_INPUT) ∧
        (FD w.socket .FD_OUTPUT ≠ -1 → r.handle ≠ FD w.socket .FD_OUTPUT) := by
  rw [DoClose_some_host]
  by_cases h1 : FD w.socket .FD_INPUT = -1
  · by_cases h2 : FD w.socket .FD_OUTPUT = -1
    · simp [h1, h2]
    · simp [h1, h2, RemoveInput, List.mem_filter]
  · by_cases h2 : FD w.socket .FD_OUTPUT = -1
    · simp [h1, h2, RemoveInput, List.mem_filter]
    · simp [h1, h2, RemoveInput, List.mem_filter]
      tauto

theorem DoClose_some_owned (m : wxSocketInputBasedManager) (w : World) (h : Int) :
    h ∈ ownedHandles (DoClose (some m) w) ↔
      h ∈ ownedHandles w ∧ h ∉ slotHandles w.socket := by
  have hself : (DoClose (some m) w).socket.self = w.socket.self := by
    rw [DoClose_some_socket, (setFD_frame _ _ _).1, (setFD_frame _ _ _).1]
  rw [mem_ownedHandles, mem_ownedHandles, mem_slotHandles, hself]
  constructor
  · rintro ⟨r, hr, hown, rfl⟩
    obtain ⟨hr0, hin, hout⟩ := (DoClose_some_regs_iff m w r).1 hr
    refine ⟨⟨r, hr0, hown, rfl⟩, ?_⟩
    rintro ⟨hne, e | e⟩
    · exact hin (e ▸ hne) e
    · exact hout (e ▸ hne) e
  · rintro ⟨⟨r, hr, hown, rfl⟩, hnot⟩
    refine ⟨r, (DoClose_some_regs_iff m w r).2 ⟨hr, ?_, ?_⟩, hown, rfl⟩
    · intro hne e
      exact hnot ⟨e ▸ hne, Or.inl e⟩
    · intro hne e
      exact hnot ⟨e ▸ hne, Or.inr e⟩

/-- C4, amended: for every state, running `DoClose` twice yields the same
slots and the same host registrations as running it once, and the second run
makes no host call, with or without a socket manager. With a manager both
slots are the sentinel afterwards, for every state, and the registrations of
the socket that remain are those that no slot held: when every registration
the host holds for the socket was held in a slot, none is left. Without a
manager the slots and the host are left as they were. -/
theorem DoClose_twice (manager : Option wxSocketInputBasedManager)
    (m : wxSocketInputBasedManager) (w : World) :
    (DoClose manager (DoClose manager w)).socket = (DoClose manager w).socket ∧
    (DoClose manager (DoClose manager w)).host.regs = (DoClose manager w).host.regs ∧
    (DoClose manager (DoClose manager w)).host.calls = (DoClose manager w).host.calls ∧
    (DoClose (some m) w).socket.m_fds = (-1, -1) ∧
    (∀ h, h ∈ ownedHandles (DoClose (some m) w) ↔
      h ∈ ownedHandles w ∧ h ∉ slotHandles w.socket) ∧
    ((∀ h ∈ ownedHandles w, h ∈ slotHandles w.socket) →
      ownedHandles (DoClose (some m) w) = []) ∧
    (DoClose none w).socket = w.socket ∧ (DoClose none w).host = w.host := by
  have hidem : (DoClose manager (DoClose manager w)).socket = (DoClose manager w).socket ∧
      (DoClose manager (DoClose manager w)).host = (DoClose manager w).host := by
    cases manager with
    | none => exact ⟨rfl, rfl⟩
    | some m1 => exact DoClose_some_closed_slots m1 _ (DoClose_some_slots m1 w)
  refine ⟨hidem.1, by rw [hidem.2], by rw [hidem.2], DoClose_some_slots m w,
    DoClose_some_owned m w, ?_, rfl, rfl⟩
  intro hown
  rw [List.eq_nil_iff_forall_not_mem]
  intro h hmem
  obtain ⟨h1, h2⟩ := (DoClose_some_owned m w h).1 hmem
  exact h2 (hown h h1)

/-- Witness of C4: the socket with the input handle 1 and the output handle 2
registered, and the state with a registration that no slot holds. -/
theorem DoClose_twice_witness :
    (∀ h ∈ ownedHandles bothRegisteredWorld, h ∈ slotHandles bothRegisteredWorld.socket) ∧
    bothRegisteredWorld.socket.m_fds = (1, 2) ∧
    ownedHandles (DoClose (some freshManager) bothRegisteredWorld) = [] ∧
    (DoClose (some freshManager) bothRegisteredWorld).socket.m_fds = (-1, -1) ∧
    (DoClose (some freshManager) (DoClose (some freshManager) leakedWorld)).host.regs
      = (DoClose (some freshManager) leakedWorld).host.regs ∧
    (DoClose none (DoClose none bothRegisteredWorld)).socket
      = (DoClose none bothRegisteredWorld).socket :=
  ⟨by decide, by decide,
   (DoClose_twice (some freshManager) freshManager bothRegisteredWorld).2.2.2.2.2.1
     (by decide),
   (DoClose_twice (some freshManager) freshManager bothRegisteredWorld).2.2.2.1,
   (DoClose_twice (some freshManager) freshManager leakedWorld).2.1,
   (DoClose_twice none freshManager bothRegisteredWorld).1⟩

/-! ### Registering and unregistering one event -/

/-- C5: with a valid descriptor, `Install_Callback` makes these host calls and
no other: `RemoveInput` on the old handle of slot `d` when that handle is not
the sentinel, then `AddInput` once, with the socket as handler, the socket's
descriptor and the direction `d` that `GetDirForEvent` gives for the event.
Afterwards slot `d` holds the handle `AddInput` returned, and the other slot
is as before. -/
theorem Install_Callback_calls (m : wxSocketInputBasedManager) (w : World)
    (event : wxSocketNotify) (hfd : w.socket.m_fd ≠ -1) :
    (Install_Callback m w event).host.calls
      = w.host.calls
        ++ (if FD w.socket (GetDirForEvent w.socket event).dir ≠ -1
            then [HostCall.RemoveInput (FD w.socket (GetDirForEvent w.socket event).dir)]
            else [])
        ++ [HostCall.AddInput w.socket.self w.socket.m_fd
              (GetDirForEvent w.socket event).dir
              (FD (Install_Callback m w event).socket (GetDirForEvent w.socket event).dir)] ∧
    FD (Install_Callback m w event).socket (GetDirForEvent w.socket event).dir
      = m.newHandle
          (if FD w.socket (GetDirForEvent w.socket event).dir ≠ -1
            then RemoveInput w.host (FD w.socket (GetDirForEvent w.socket event).dir)
            else w.host)
          w.socket.self w.socket.m_fd (GetDirForEvent w.socket event).dir ∧
    FD (Install_Callback m w event).socket (GetDirForEvent w.socket event).dir.other
      = FD w.socket (GetDirForEvent w.socket event).dir.other := by
  have hsock := Install_Callback_slot m w event hfd
  refine ⟨?_, by rw [hsock, FD_setFD_same], by rw [hsock, FD_setFD_other]⟩
  rw [hsock, FD_setFD_same]
  unfold Install_Callback
  rw [if_neg hfd]
  by_cases hold : FD w.socket (GetDirForEvent w.socket event).dir = -1
  · simp [hold, AddInput]
  · simp [hold, AddInput, RemoveInput]

/-- Witness of C5: installing `wxSOCKET_LOST` on the socket that already has
`wxSOCKET_INPUT` installed on the same slot. -/
theorem Install_Callback_calls_witness :
    registeredWorld.socket.m_fd ≠ -1 ∧
    FD registeredWorld.socket .FD_INPUT = 1 ∧
    (Install_Callback freshManager registeredWorld .wxSOCKET_LOST).host.calls
      = registeredWorld.host.calls
        ++ [HostCall.RemoveInput 1]
        ++ [HostCall.AddInput 1 3 .FD_INPUT 1] :=
  ⟨by decide, by decide,
   (Install_Callback_calls freshManager registeredWorld .wxSOCKET_LOST (by decide)).1⟩

/-- C6, the claim as stated fails: installing `wxSOCKET_INPUT` gives the input
slot the handle 100, installing it again replaces 100 by 102, and the
`Uninstall_Callback` that follows calls `RemoveInput` on 102 and sets the slot
to the sentinel; the slot does not keep 102 and 102 is no longer registered. -/
theorem stale_teardown_removes_newer :
    FD (Install_Callback counterManager freshWorld .wxSOCKET_INPUT).socket .FD_INPUT = 100 ∧
    FD replacedWorld.socket .FD_INPUT = 102 ∧
    ¬ (FD (Uninstall_Callback counterManager replacedWorld .wxSOCKET_INPUT).socket .FD_INPUT
          = 102 ∧
        102 ∈ (Uninstall_Callback counterManager replacedWorld .wxSOCKET_INPUT).host.regs.map
          (fun r => r.handle)) ∧
    HostCall.RemoveInput 102
      ∈ (Uninstall_Callback counterManager replacedWorld .wxSOCKET_INPUT).host.calls :=
  ⟨by decide, by decide, by decide, by decide⟩

/-- C6, amended: `Uninstall_Callback` takes no handle and tears down whatever
the slot holds. After a registration of direction `d` has been replaced by a
second one with the non-sentinel handle `h2`, an `Uninstall_Callback` for any
event resolving to `d` calls `RemoveInput` on `h2` and nothing else, leaves no
registration with the handle `h2`, and sets slot `d` to the sentinel. -/
theorem teardown_removes_current_handle (m : wxSocketInputBasedManager) (w : World)
    (e1 e2 e3 : wxSocketNotify) (d : SocketDir) (h2 : Int)
    (h1d : (GetDirForEvent w.socket e1).dir = d)
    (h2d : (GetDirForEvent w.socket e2).dir = d)
    (h3d : (GetDirForEvent w.socket e3).dir = d)
    (hslot : FD (Install_Callback m (Install_Callback m w e1) e2).socket d = h2)
    (hne : h2 ≠ -1) :
    FD (Uninstall_Callback m (Install_Callback m (Install_Callback m w e1) e2) e3).socket d
      = -1 ∧
    (Uninstall_Callback m (Install_Callback m (Install_Callback m w e1) e2) e3).host.calls
      = (Install_Callback m (Install_Callback m w e1) e2).host.calls
        ++ [HostCall.RemoveInput h2] ∧
    ∀ r ∈ (Uninstall_Callback m (Install_Callback m (Install_Callback m w e1) e2) e3).host.regs,
      r.handle ≠ h2 := by
  have _ := h1d
  have _ := h2d
  generalize hw2 : Install_Callback m (Install_Callback m w e1) e2 = w2 at hslot ⊢
  have hsrv : w2.socket.m_server = w.socket.m_server := by
    rw [← hw2]
    exact (Install_Callback_frame m _ e2).2.2.trans (Install_Callback_frame m w e1).2.2
  have hdir : (GetDirForEvent w2.socket e3).dir = d := by
    rw [GetDirForEvent_congr w.socket _ _ hsrv]
    exact h3d
  have hfd : FD w2.socket (GetDirForEvent w2.socket e3).dir ≠ -1 := by
    rw [hdir, hslot]
    exact hne
  refine ⟨?_, ?_, ?_⟩
  · rw [← hdir]
    exact Uninstall_Callback_clears m w2 e3
  · rw [Uninstall_Callback_host, if_pos hfd, hdir, hslot]
    rfl
  · rw [Uninstall_Callback_host, if_pos hfd, hdir, hslot]
    intro r hr
    simp only [RemoveInput, List.mem_filter, decide_eq_true_eq] at hr
    exact hr.2

/-- Witness of C6: the input registration 100 of the fresh socket replaced by
102, then torn down. -/
theorem teardown_removes_current_handle_witness :
    FD (Install_Callback counterManager
      (Install_Callback counterManager freshWorld .wxSOCKET_INPUT) .wxSOCKET_LOST).socket
      .FD_INPUT = 102 ∧
    (FD (Uninstall_Callback counterManager (Install_Callback counterManager
        (Install_Callback counterManager freshWorld .wxSOCKET_INPUT) .wxSOCKET_LOST)
        .wxSOCKET_INPUT).socket .FD_INPUT = -1 ∧
    (Uninstall_Callback counterManager (Install_Callback counterManager
        (Install_Callback counterManager freshWorld .wxSOCKET_INPUT) .wxSOCKET_LOST)
        .wxSOCKET_INPUT).host.calls
      = (Install_Callback counterManager
          (Install_Callback counterManager freshWorld .wxSOCKET_INPUT)
          .wxSOCKET_LOST).host.calls ++ [HostCall.RemoveInput 102] ∧
    ∀ r ∈ (Uninstall_Callback counterManager (Install_Callback counterManager
        (Install_Callback counterManager freshWorld .wxSOCKET_INPUT) .wxSOCKET_LOST)
        .wxSOCKET_INPUT).host.regs, r.handle ≠ 102) :=
  ⟨by decide,
   teardown_removes_current_handle counterManager freshWorld .wxSOCKET_INPUT .wxSOCKET_LOST
     .wxSOCKET_INPUT .FD_INPUT 102 (by decide) (by decide) (by decide) (by decide)
     (by decide)⟩

/-! ### Unexpected events -/

/-- C7: for every event value other than the four enumerators,
`GetDirForEvent` reports a programming error, the assertion failure
"unexpected socket event", and so never maps the value to a direction
silently: no direction comes back from it without the report. The direction
that comes back with the report is `FD_INPUT`, the `default` label falling
through to the `wxSOCKET_LOST` and `wxSOCKET_INPUT` labels. The report reaches
the caller: `Uninstall_Callback` records it, and so does `Install_Callback`
unless it has already stopped at its own failed descriptor check. The four
enumerators raise no assertion. -/
theorem GetDirForEvent_unexpected_reported (socket : wxSocketImplUnix) (v : Int)
    (m : wxSocketInputBasedManager) (w : World) :
    (GetDirForEvent socket (.unexpected v)).asserts = [ "unexpected socket event" ] ∧
    (GetDirForEvent socket (.unexpected v)).asserts ≠ [] ∧
    (∀ d, GetDirForEvent socket (.unexpected v) ≠ { dir := d, asserts := [] }) ∧
    (GetDirForEvent socket (.unexpected v)).dir = .FD_INPUT ∧
    (Uninstall_Callback m w (.unexpected v)).asserts
      = w.asserts ++ [ "unexpected socket event" ] ∧
    (Install_Callback m w (.unexpected v)).asserts
      = w.asserts ++
        [if w.socket.m_fd = -1 then "shouldn't be called on invalid socket"
          else "unexpected socket event"] ∧
    ((GetDirForEvent socket .wxSOCKET_INPUT).asserts = [] ∧
      (GetDirForEvent socket .wxSOCKET_OUTPUT).asserts = [] ∧
      (GetDirForEvent socket .wxSOCKET_CONNECTION).asserts = [] ∧
      (GetDirForEvent socket .wxSOCKET_LOST).asserts = []) := by
  refine ⟨rfl, ?_, ?_, rfl, ?_, ?_, ⟨rfl, rfl, rfl, rfl⟩⟩
  · simp [GetDirForEvent]
  · intro d h
    have := congrArg DirResult.asserts h
    simp [GetDirForEvent] at this
  · have hdir : (GetDirForEvent w.socket (.unexpected v)).dir = .FD_INPUT := rfl
    unfold Uninstall_Callback
    by_cases h : FD w.socket .FD_INPUT = -1
    · simp [h, hdir, GetDirForEvent]
    · simp [h, hdir, GetDirForEvent]
  · unfold Install_Callback
    by_cases h : w.socket.m_fd = -1
    · simp [h]
    · simp [h, GetDirForEvent]

/-! ### The effect of `Uninstall_Callback` -/

/-- C8: `Uninstall_Callback` leaves the slot of the event's direction `d`
sentinel and the other slot unchanged. When slot `d` held a handle it makes
the one host call `RemoveInput` on that handle; when slot `d` was sentinel it
makes no host call and leaves the socket and the host as they were. Applying
it twice gives the same socket and host as applying it once. -/
theorem Uninstall_Callback_effect (m : wxSocketInputBasedManager) (w : World)
    (event : wxSocketNotify) :
    FD (Uninstall_Callback m w event).socket (GetDirForEvent w.socket event).dir = -1 ∧
    FD (Uninstall_Callback m w event).socket (GetDirForEvent w.socket event).dir.other
      = FD w.socket (GetDirForEvent w.socket event).dir.other ∧
    (Uninstall_Callback m w event).host.calls
      = w.host.calls
        ++ (if FD w.socket (GetDirForEvent w.socket event).dir ≠ -1
            then [HostCall.RemoveInput (FD w.socket (GetDirForEvent w.socket event).dir)]
            else []) ∧
    (Uninstall_Callback m w event).host.regs
      = (if FD w.socket (GetDirForEvent w.socket event).dir ≠ -1
          then w.host.regs.filter
            (fun r => r.handle ≠ FD w.socket (GetDirForEvent w.socket event).dir)
          else w.host.regs) ∧
    (Uninstall_Callback m w event).socket
      = (if FD w.socket (GetDirForEvent w.socket event).dir ≠ -1
          then setFD w.socket (GetDirForEvent w.socket event).dir (-1)
          else w.socket) ∧
    (Uninstall_Callback m (Uninstall_Callback m w event) event).socket
      = (Uninstall_Callback m w event).socket ∧
    (Uninstall_Callback m (Uninstall_Callback m w event) event).host
      = (Uninstall_Callback m w event).host := by
  have hsrv := (Uninstall_Callback_frame m w event).2.2
  have hdir := GetDirForEvent_congr w.socket _ event hsrv
  have hclr := Uninstall_Callback_clears m w event
  refine ⟨hclr, ?_, ?_, ?_, ?_, ?_, ?_⟩
  · rw [Uninstall_Callback_socket, FD_setFD_other]
  · rw [Uninstall_Callback_host]
    by_cases h : FD w.socket (GetDirForEvent w.socket event).dir = -1
    · simp [h]
    · simp [h, RemoveInput]
  · rw [Uninstall_Callback_host]
    by_cases h : FD w.socket (GetDirForEvent w.socket event).dir = -1
    · simp [h]
    · simp [h, RemoveInput]
  · rw [Uninstall_Callback_socket]
    by_cases h : FD w.socket (GetDirForEvent w.socket event).dir = -1
    · simp [h, setFD_sentinel_of_sentinel]
    · simp [h]
  · rw [Uninstall_Callback_socket m (Uninstall_Callback m w event), hdir]
    exact setFD_sentinel_of_sentinel _ _ hclr
  · rw [Uninstall_Callback_host m (Uninstall_Callback m w event), hdir, hclr]
    simp

/-! ### Construction and the callback mask -/

/-- C9: a freshly constructed `wxSocketImplUnix` has both slots of `m_fds`
equal to the sentinel -1, `m_use_events` false and `m_enabledCallbacks` 0, so
`HasAnyEnabledCallbacks()` is false and `GetEnabledCallbacks()` is 0. -/
theorem ctor_initial_state (base : wxSocketImpl) :
    (wxSocketImplUnix.ctor base).m_fds = (-1, -1) ∧
    FD (wxSocketImplUnix.ctor base) .FD_INPUT = -1 ∧
    FD (wxSocketImplUnix.ctor base) .FD_OUTPUT = -1 ∧
    (wxSocketImplUnix.ctor base).m_use_events = false ∧
    (wxSocketImplUnix.ctor base).m_enabledCallbacks = 0 ∧
    (wxSocketImplUnix.ctor base).HasAnyEnabledCallbacks = false ∧
    (wxSocketImplUnix.ctor base).GetEnabledCallbacks = 0 :=
  ⟨rfl, rfl, rfl, rfl, rfl, rfl, rfl⟩

theorem int_eq_of_testBit_eq (a b : Int) (h : ∀ i, a.testBit i = b.testBit i) : a = b := by
  have hfalse : ∀ m n : Nat, Nat.testBit m (m + n) = false ∧ Nat.testBit n (m + n) = false := by
    intro m n
    constructor
    · exact Nat.testBit_lt_two_pow
        (lt_of_lt_of_le m.lt_two_pow (Nat.pow_le_pow_right (by decide) (Nat.le_add_right m n)))
    · exact Nat.testBit_lt_two_pow
        (lt_of_lt_of_le n.lt_two_pow (Nat.pow_le_pow_right (by decide) (Nat.le_add_left n m)))
  cases a with
  | ofNat m =>
    cases b with
    | ofNat n =>
      congr 1
      exact Nat.eq_of_testBit_eq h
    | negSucc n =>
      exfalso
      have := h (m + n)
      simp only [Int.testBit, (hfalse m n).1, (hfalse m n).2] at this
      exact absurd this (by decide)
  | negSucc m =>
    cases b with
    | ofNat n =>
      exfalso
      have := h (m + n)
      simp only [Int.testBit, (hfalse m n).1, (hfalse m n).2] at this
      exact absurd this (by decide)
    | negSucc n =>
      congr 1
      apply Nat.eq_of_testBit_eq
      intro i
      have := h i
      simp only [Int.testBit] at this
      exact Bool.not_inj this

theorem ldiff_lt_two_pow (a b k : Nat) (h : a < 2 ^ k) : Nat.ldiff a b < 2 ^ k := by
  apply Nat.lt_pow_two_of_testBit
  intro i hi
  have ha : a.testBit i = false :=
    Nat.testBit_lt_two_pow (lt_of_lt_of_le h (Nat.pow_le_pow_right (by decide) hi))
  rw [Nat.testBit_ldiff, ha]
  rfl

theorem inIntRange_ofNat (m : Nat) : InIntRange (Int.ofNat m) ↔ m < 2 ^ 31 := by
  simp only [InIntRange, Int.ofNat_eq_coe]
  omega

theorem inIntRange_negSucc (m : Nat) : InIntRange (Int.negSucc m) ↔ m < 2 ^ 31 := by
  simp only [InIntRange, Int.negSucc_eq]
  omega

theorem inIntRange_lnot (a : Int) (ha : InIntRange a) : InIntRange (Int.lnot a) := by
  cases a with
  | ofNat m =>
    rw [inIntRange_ofNat] at ha
    exact (inIntRange_negSucc m).2 ha
  | negSucc m =>
    rw [inIntRange_negSucc] at ha
    exact (inIntRange_ofNat m).2 ha

theorem inIntRange_lor (a b : Int) (ha : InIntRange a) (hb : InIntRange b) :
    InIntRange (Int.lor a b) := by
  cases a with
  | ofNat m =>
    cases b with
    | ofNat n =>
      rw [inIntRange_ofNat] at ha hb
      exact (inIntRange_ofNat _).2 (Nat.or_lt_two_pow ha hb)
    | negSucc n =>
      rw [inIntRange_negSucc] at hb
      exact (inIntRange_negSucc _).2 (ldiff_lt_two_pow n m 31 hb)
  | negSucc m =>
    cases b with
    | ofNat n =>
      rw [inIntRange_negSucc] at ha
      exact (inIntRange_negSucc _).2 (ldiff_lt_two_pow m n 31 ha)
    | negSucc n =>
      rw [inIntRange_negSucc] at ha hb
      exact (inIntRange_negSucc _).2 (lt_of_le_of_lt Nat.and_le_left ha)

theorem inIntRange_land (a b : Int) (ha : InIntRange a) (hb : InIntRange b) :
    InIntRange (Int.land a b) := by
  cases a with
  | ofNat m =>
    cases b with
    | ofNat n =>
      rw [inIntRange_ofNat] at ha hb
      exact (inIntRange_ofNat _).2 (lt_of_le_of_lt Nat.and_le_left ha)
    | negSucc n =>
      rw [inIntRange_ofNat] at ha
      exact (inIntRange_ofNat _).2 (ldiff_lt_two_pow m n 31 ha)
  | negSucc m =>
    cases b with
    | ofNat n =>
      rw [inIntRange_ofNat] at hb
      exact (inIntRange_ofNat _).2 (ldiff_lt_two_pow n m 31 hb)
    | negSucc n =>
      rw [inIntRange_negSucc] at ha hb
      exact (inIntRange_negSucc _).2 (Nat.or_lt_two_pow ha hb)

/-- The mask stays a value of `int`: no operation on it leaves the 32 bit
range, so the unbounded integers agree with the machine arithmetic. -/
theorem callback_mask_in_range (s : wxSocketImplUnix) (f : Int)
    (hm : InIntRange s.m_enabledCallbacks) (hf : InIntRange f) :
    InIntRange (s.EnableCallback f).m_enabledCallbacks ∧
    InIntRange (s.DisableCallback f).m_enabledCallbacks :=
  ⟨inIntRange_lor _ _ hm hf, inIntRange_land _ _ hm (inIntRange_lnot _ hf)⟩

/-- C10: `EnableCallback(f)` turns the mask `m` into `m | f`: bit `i` of the
result is set exactly when it is set in `m` or in `f`. `DisableCallback(f)`
turns it into `m & ~f`: bit `i` of the result is set exactly when it is set in
`m` and not in `f`. Disabling `f` after enabling it leaves no bit of `f` set,
each of the two operations is idempotent, and `HasAnyEnabledCallbacks()` is
true exactly when `GetEnabledCallbacks()` is not 0. -/
theorem callback_mask_operations (s : wxSocketImplUnix) (f : Int) :
    (s.EnableCallback f).GetEnabledCallbacks = Int.lor s.GetEnabledCallbacks f ∧
    (s.DisableCallback f).GetEnabledCallbacks
      = Int.land s.GetEnabledCallbacks (Int.lnot f) ∧
    (∀ i, (s.EnableCallback f).GetEnabledCallbacks.testBit i
      = (s.GetEnabledCallbacks.testBit i || f.testBit i)) ∧
    (∀ i, (s.DisableCallback f).GetEnabledCallbacks.testBit i
      = (s.GetEnabledCallbacks.testBit i && !f.testBit i)) ∧
    (∀ i, (((s.EnableCallback f).DisableCallback f).GetEnabledCallbacks.testBit i
      && f.testBit i) = false) ∧
    Int.land ((s.EnableCallback f).DisableCallback f).GetEnabledCallbacks f = 0 ∧
    (s.EnableCallback f).EnableCallback f = s.EnableCallback f ∧
    (s.DisableCallback f).DisableCallback f = s.DisableCallback f ∧
    (s.HasAnyEnabledCallbacks = true ↔ s.GetEnabledCallbacks ≠ 0) := by
  refine ⟨rfl, rfl, ?_, ?_, ?_, ?_, ?_, ?_, ?_⟩
  · intro i
    simp only [wxSocketImplUnix.EnableCallback, wxSocketImplUnix.GetEnabledCallbacks,
      Int.testBit_lor]
  · intro i
    simp only [wxSocketImplUnix.DisableCallback, wxSocketImplUnix.GetEnabledCallbacks,
      Int.testBit_land, Int.testBit_lnot]
  · intro i
    simp only [wxSocketImplUnix.EnableCallback, wxSocketImplUnix.DisableCallback,
      wxSocketImplUnix.GetEnabledCallbacks, Int.testBit_land, Int.testBit_lnot,
      Int.testBit_lor]
    cases s.m_enabledCallbacks.testBit i <;> cases f.testBit i <;> rfl
  · apply int_eq_of_testBit_eq
    intro i
    have hzero : Int.testBit 0 i = false := by
      show Nat.testBit 0 i = false
      exact Nat.zero_testBit i
    simp only [wxSocketImplUnix.EnableCallback, wxSocketImplUnix.DisableCallback,
      wxSocketImplUnix.GetEnabledCallbacks, Int.testBit_land, Int.testBit_lnot,
      Int.testBit_lor, hzero]
    cases s.m_enabledCallbacks.testBit i <;> cases f.testBit i <;> rfl
  · simp only [wxSocketImplUnix.EnableCallback]
    congr 1
    apply int_eq_of_testBit_eq
    intro i
    simp only [Int.testBit_lor]
    cases s.m_enabledCallbacks.testBit i <;> cases f.testBit i <;> rfl
  · simp only [wxSocketImplUnix.DisableCallback]
    congr 1
    apply int_eq_of_testBit_eq
    intro i
    simp only [Int.testBit_land, Int.testBit_lnot]
    cases s.m_enabledCallbacks.testBit i <;> cases f.testBit i <;> rfl
  · simp [wxSocketImplUnix.HasAnyEnabledCallbacks, wxSocketImplUnix.GetEnabledCallbacks]

/-! ### The event switches -/

/-- C11: in a state with `m_use_events` false, `EnableEvents`, `DisableEvents`
and the `EnableEvents()` step of `UnblockAndRegisterWithEventLoop` do nothing:
`DoEnableEvents` is not called, and the slots, the enabled mask and
`m_use_events` are as before (of `UnblockAndRegisterWithEventLoop` only the
`ioctl` remains). In a state with `m_use_events` true, `EnableEvents` makes
the one call `DoEnableEvents(true)` and `DisableEvents` the one call
`DoEnableEvents(false)`, whatever the definition of `DoEnableEvents` is. -/
theorem events_gated_by_m_use_events (body : Bool → World → World)
    (ewOff ewOn : EventWorld)
    (hoff : ewOff.world.socket.m_use_events = false)
    (hon : ewOn.world.socket.m_use_events = true) :
    (EnableEvents body ewOff = ewOff ∧ DisableEvents body ewOff = ewOff) ∧
    ((UnblockAndRegisterWithEventLoop body ewOff).enableCalls = ewOff.enableCalls ∧
      (UnblockAndRegisterWithEventLoop body ewOff).world = ewOff.world ∧
      (UnblockAndRegisterWithEventLoop body ewOff).ioctls
        = ewOff.ioctls ++ [{ fd := ewOff.world.socket.m_fd, request := "FIONBIO", arg := 1 }]) ∧
    ((EnableEvents body ewOff).world.socket.m_fds = ewOff.world.socket.m_fds ∧
      (EnableEvents body ewOff).world.socket.m_enabledCallbacks
        = ewOff.world.socket.m_enabledCallbacks ∧
      (EnableEvents body ewOff).world.socket.m_use_events = false ∧
      (DisableEvents body ewOff).world.socket.m_fds = ewOff.world.socket.m_fds ∧
      (DisableEvents body ewOff).world.socket.m_enabledCallbacks
        = ewOff.world.socket.m_enabledCallbacks ∧
      (DisableEvents body ewOff).world.socket.m_use_events = false) ∧
    ((EnableEvents body ewOn).enableCalls = ewOn.enableCalls ++ [true] ∧
      (EnableEvents body ewOn).world = body true ewOn.world) ∧
    ((DisableEvents body ewOn).enableCalls = ewOn.enableCalls ++ [false] ∧
      (DisableEvents body ewOn).world = body false ewOn.world) ∧
    ((UnblockAndRegisterWithEventLoop body ewOn).enableCalls = ewOn.enableCalls ++ [true] ∧
      (UnblockAndRegisterWithEventLoop body ewOn).world = body true ewOn.world) := by
  have he : EnableEvents body ewOff = ewOff := by
    simp [EnableEvents, hoff]
  have hd : DisableEvents body ewOff = ewOff := by
    simp [DisableEvents, hoff]
  refine ⟨⟨he, hd⟩, ?_, ?_, ?_, ?_, ?_⟩
  · simp [UnblockAndRegisterWithEventLoop, EnableEvents, hoff]
  · rw [he, hd]
    exact ⟨rfl, rfl, hoff, rfl, rfl, hoff⟩
  · simp [EnableEvents, DoEnableEvents, hon]
  · simp [DisableEvents, DoEnableEvents, hon]
  · simp [UnblockAndRegisterWithEventLoop, EnableEvents, DoEnableEvents, hon]

/-- Witness of C11: the fresh socket with events off and the input callback
wanted, and the fresh socket with events on. -/
theorem events_gated_by_m_use_events_witness :
    eventsOffWorld.world.socket.m_use_events = false ∧
    eventsOnWorld.world.socket.m_use_events = true ∧
    EnableEvents (sampleDoEnableEvents freshManager) eventsOffWorld = eventsOffWorld ∧
    (EnableEvents (sampleDoEnableEvents freshManager) eventsOnWorld).enableCalls = [true] ∧
    (DisableEvents (sampleDoEnableEvents freshManager) eventsOnWorld).enableCalls = [false] :=
  have h := events_gated_by_m_use_events (sampleDoEnableEvents freshManager)
    eventsOffWorld eventsOnWorld (by decide) (by decide)
  ⟨by decide, by decide, h.1.1, h.2.2.2.1.1, h.2.2.2.2.1.1⟩

/-! ### Invalid descriptor -/

/-- C12: on a socket whose descriptor is invalid (`m_fd == -1`)
`Install_Callback` returns after the failed check: it calls neither `AddInput`
nor `RemoveInput`, the host is as before and so are both slots of `m_fds` and
the rest of the socket; the check reports its assertion. -/
theorem Install_Callback_invalid_descriptor (m : wxSocketInputBasedManager) (w : World)
    (event : wxSocketNotify) (hfd : w.socket.m_fd = -1) :
    (Install_Callback m w event).host.calls = w.host.calls ∧
    (Install_Callback m w event).host.regs = w.host.regs ∧
    (Install_Callback m w event).socket.m_fds = w.socket.m_fds ∧
    (Install_Callback m w event).socket = w.socket ∧
    (Install_Callback m w event).asserts
      = w.asserts ++ [ "shouldn't be called on invalid socket" ] := by
  unfold Install_Callback
  rw [if_pos hfd]
  exact ⟨rfl, rfl, rfl, rfl, rfl⟩

/-- Witness of C12: the socket with an invalid descriptor whose input slot
holds the handle 5. -/
theorem Install_Callback_invalid_descriptor_witness :
    invalidFdWorld.socket.m_fd = -1 ∧
    (Install_Callback freshManager invalidFdWorld .wxSOCKET_INPUT).host.calls = [] ∧
    (Install_Callback freshManager invalidFdWorld .wxSOCKET_INPUT).socket.m_fds = (5, -1) :=
  have h := Install_Callback_invalid_descriptor freshManager invalidFdWorld .wxSOCKET_INPUT
    (by decide)
  ⟨by decide, h.1, h.2.2.1⟩

/-! ### Frames -/

theorem Install_Callback_intent (m : wxSocketInputBasedManager) (w : World)
    (event : wxSocketNotify) :
    (Install_Callback m w event).socket.m_enabledCallbacks = w.socket.m_enabledCallbacks ∧
    (Install_Callback m w event).socket.m_use_events = w.socket.m_use_events := by
  unfold Install_Callback
  by_cases hfd : w.socket.m_fd = -1
  · rw [if_pos hfd]
    exact ⟨rfl, rfl⟩
  · rw [if_neg hfd]
    exact ⟨(setFD_frame _ _ _).2.2.2.2, (setFD_frame _ _ _).2.2.2.1⟩

theorem Uninstall_Callback_intent (m : wxSocketInputBasedManager) (w : World)
    (event : wxSocketNotify) :
    (Uninstall_Callback m w event).socket.m_enabledCallbacks = w.socket.m_enabledCallbacks ∧
    (Uninstall_Callback m w event).socket.m_use_events = w.socket.m_use_events := by
  rw [Uninstall_Callback_socket]
  exact ⟨(setFD_frame _ _ _).2.2.2.2, (setFD_frame _ _ _).2.2.2.1⟩

theorem DoClose_intent (manager : Option wxSocketInputBasedManager) (w : World) :
    (DoClose manager w).socket.m_enabledCallbacks = w.socket.m_enabledCallbacks ∧
    (DoClose manager w).socket.m_use_events = w.socket.m_use_events := by
  cases manager with
  | none => exact ⟨rfl, rfl⟩
  | some m =>
    rw [DoClose_some_socket]
    exact ⟨(setFD_frame _ _ _).2.2.2.2.trans (setFD_frame _ _ _).2.2.2.2,
      (setFD_frame _ _ _).2.2.2.1.trans (setFD_frame _ _ _).2.2.2.1⟩

/-- C13: `Install_Callback`, `Uninstall_Callback` and `DoClose` leave
`m_enabledCallbacks` and `m_use_events` as they were, for every state and
event and with or without a socket manager; `EnableCallback` and
`DisableCallback` leave both slots of `m_fds` and `m_use_events` as they
were. So the enabled mask after `DoClose` is the one before it. -/
theorem registration_and_mask_frames (m : wxSocketInputBasedManager)
    (manager : Option wxSocketInputBasedManager) (w : World) (event : wxSocketNotify)
    (s : wxSocketImplUnix) (flag : Int) :
    ((Install_Callback m w event).socket.m_enabledCallbacks = w.socket.m_enabledCallbacks ∧
      (Install_Callback m w event).socket.m_use_events = w.socket.m_use_events) ∧
    ((Uninstall_Callback m w event).socket.m_enabledCallbacks = w.socket.m_enabledCallbacks ∧
      (Uninstall_Callback m w event).socket.m_use_events = w.socket.m_use_events) ∧
    ((DoClose manager w).socket.m_enabledCallbacks = w.socket.m_enabledCallbacks ∧
      (DoClose manager w).socket.m_use_events = w.socket.m_use_events ∧
      (DoClose manager w).socket.GetEnabledCallbacks = w.socket.GetEnabledCallbacks) ∧
    ((s.EnableCallback flag).m_fds = s.m_fds ∧
      FD (s.EnableCallback flag) .FD_INPUT = FD s .FD_INPUT ∧
      FD (s.EnableCallback flag) .FD_OUTPUT = FD s .FD_OUTPUT ∧
      (s.EnableCallback flag).m_use_events = s.m_use_events) ∧
    ((s.DisableCallback flag).m_fds = s.m_fds ∧
      FD (s.DisableCallback flag) .FD_INPUT = FD s .FD_INPUT ∧
      FD (s.DisableCallback flag) .FD_OUTPUT = FD s .FD_OUTPUT ∧
      (s.DisableCallback flag).m_use_events = s.m_use_events) :=
  ⟨Install_Callback_intent m w event, Uninstall_Callback_intent m w event,
   ⟨(DoClose_intent manager w).1, (DoClose_intent manager w).2, (DoClose_intent manager w).1⟩,
   ⟨rfl, rfl, rfl, rfl⟩, ⟨rfl, rfl, rfl, rfl⟩⟩

end SockUnix
